import Mathlib

/-!
Verification of the baseapp ABCI surface (InitChain, FinalizeBlock, Query,
CreateQueryContext, GetBlockRetentionHeight) of the cosmos-sdk baseapp
package, as a shallow embedding in Lean.

Go machine integers are modelled as `Int`/`Nat` with explicit wraparound
where a conversion between widths occurs.  Go byte slices are `List Nat`
(each entry a byte).  Go panics and returned errors are both modelled with
`Except String`.
-/

namespace Baseapp

/-! ## Machine-integer conversions -/

/-- Go's `uint64(x)` applied to an `int64` value: reduce modulo 2^64. -/
def uint64OfInt (x : Int) : Nat :=
  (x % (2 ^ 64 : Int)).toNat

/-- Go's `int64(u)` applied to a `uint64` value: wrap into the signed range. -/
def int64OfNat (u : Nat) : Int :=
  if u % 2 ^ 64 < 2 ^ 63 then (u % 2 ^ 64 : Int)
  else (u % 2 ^ 64 : Int) - 2 ^ 64

/-! ## SHA-256

`InitChain` computes `sha256.Sum256([]byte{})` for the genesis apphash.
This is a byte-level embedding of SHA-256 (FIPS 180-4, as implemented by
Go's `crypto/sha256`), over `List Nat` byte strings. -/

/-- 32-bit right-rotation. -/
def rotr32 (x n : Nat) : Nat :=
  ((x >>> n) ||| (x <<< (32 - n))) % 2 ^ 32

/-- SHA-256 `Ch` function. -/
def shaCh (x y z : Nat) : Nat :=
  (x &&& y) ^^^ ((2 ^ 32 - 1 - x % 2 ^ 32) &&& z)

/-- SHA-256 `Maj` function. -/
def shaMaj (x y z : Nat) : Nat :=
  (x &&& y) ^^^ (x &&& z) ^^^ (y &&& z)

/-- SHA-256 big sigma-0. -/
def bigSigma0 (x : Nat) : Nat :=
  rotr32 x 2 ^^^ rotr32 x 13 ^^^ rotr32 x 22

/-- SHA-256 big sigma-1. -/
def bigSigma1 (x : Nat) : Nat :=
  rotr32 x 6 ^^^ rotr32 x 11 ^^^ rotr32 x 25

/-- SHA-256 small sigma-0. -/
def smallSigma0 (x : Nat) : Nat :=
  rotr32 x 7 ^^^ rotr32 x 18 ^^^ (x >>> 3)

/-- SHA-256 small sigma-1. -/
def smallSigma1 (x : Nat) : Nat :=
  rotr32 x 17 ^^^ rotr32 x 19 ^^^ (x >>> 10)

/-- The 64 SHA-256 round constants (decimal). -/
def sha256K : List Nat :=
  [1116352408, 1899447441, 3049323471, 3921009573, 961987163, 1508970993,
   2453635748, 2870763221, 3624381080, 310598401, 607225278, 1426881987,
   1925078388, 2162078206, 2614888103, 3248222580, 3835390401, 4022224774,
   264347078, 604807628, 770255983, 1249150122, 1555081692, 1996064986,
   2554220882, 2821834349, 2952996808, 3210313671, 3336571891, 3584528711,
   113926993, 338241895, 666307205, 773529912, 1294757372, 1396182291,
   1695183700, 1986661051, 2177026350, 2456956037, 2730485921, 2820302411,
   3259730800, 3345764771, 3516065817, 3600352804, 4094571909, 275423344,
   430227734, 506948616, 659060556, 883997877, 958139571, 1322822218,
   1537002063, 1747873779, 1955562222, 2024104815, 2227730452, 2361852424,
   2428436474, 2756734187, 3204031479, 3329325298]

/-- The eight SHA-256 chaining words. -/
structure HashState where
  a : Nat
  b : Nat
  c : Nat
  d : Nat
  e : Nat
  f : Nat
  g : Nat
  h : Nat
  deriving Repr, DecidableEq

/-- SHA-256 initial chaining value. -/
def sha256Init : HashState :=
  ⟨1779033703, 3144134277, 1013904242, 2773480762,
   1359893119, 2600822924, 528734635, 1541459225⟩

/-- One SHA-256 compression round. -/
def sha256Round (s : HashState) (kw : Nat × Nat) : HashState :=
  let t1 := (s.h + bigSigma1 s.e + shaCh s.e s.f s.g + kw.1 + kw.2) % 2 ^ 32
  let t2 := (bigSigma0 s.a + shaMaj s.a s.b s.c) % 2 ^ 32
  { a := (t1 + t2) % 2 ^ 32, b := s.a, c := s.b, d := s.c,
    e := (s.d + t1) % 2 ^ 32, f := s.e, g := s.f, h := s.g }

/-- Group bytes into big-endian 32-bit words. -/
def bytesToWords : List Nat → List Nat
  | a :: b :: c :: d :: rest =>
      (a * 2 ^ 24 + b * 2 ^ 16 + c * 2 ^ 8 + d) :: bytesToWords rest
  | _ => []

/-- Extend a message schedule by `n` further words. -/
def extendSchedule : Nat → List Nat → List Nat
  | 0, w => w
  | n + 1, w =>
      let i := w.length
      let nw := (smallSigma1 (w.getD (i - 2) 0) + w.getD (i - 7) 0 +
                 smallSigma0 (w.getD (i - 15) 0) + w.getD (i - 16) 0) % 2 ^ 32
      extendSchedule n (w ++ [nw])

/-- Compress one 64-byte block into the chaining state. -/
def processBlock (H : HashState) (block : List Nat) : HashState :=
  let w := extendSchedule 48 (bytesToWords block)
  let s := (sha256K.zip w).foldl sha256Round H
  { a := (H.a + s.a) % 2 ^ 32, b := (H.b + s.b) % 2 ^ 32,
    c := (H.c + s.c) % 2 ^ 32, d := (H.d + s.d) % 2 ^ 32,
    e := (H.e + s.e) % 2 ^ 32, f := (H.f + s.f) % 2 ^ 32,
    g := (H.g + s.g) % 2 ^ 32, h := (H.h + s.h) % 2 ^ 32 }

/-- Compress a padded message 64 bytes at a time, with an explicit fuel
(structural) bound; the fuel is always at least the number of blocks. -/
def processBlocksFuel : Nat → HashState → List Nat → HashState
  | 0, H, _ => H
  | _, H, [] => H
  | n + 1, H, b :: rest =>
      processBlocksFuel n (processBlock H (b :: rest.take 63)) (rest.drop 63)

/-- Compress a padded message, 64 bytes at a time. -/
def processBlocks (H : HashState) (bytes : List Nat) : HashState :=
  processBlocksFuel (bytes.length / 64 + 1) H bytes

/-- SHA-256 padding: append 0x80, zeros to 56 mod 64, then the 64-bit
big-endian bit length. -/
def sha256Pad (msg : List Nat) : List Nat :=
  let l := msg.length
  let k := (119 - l % 64) % 64
  let bitLen := 8 * l % 2 ^ 64
  msg ++ [128] ++ List.replicate k 0 ++
    [bitLen / 2 ^ 56 % 256, bitLen / 2 ^ 48 % 256, bitLen / 2 ^ 40 % 256,
     bitLen / 2 ^ 32 % 256, bitLen / 2 ^ 24 % 256, bitLen / 2 ^ 16 % 256,
     bitLen / 2 ^ 8 % 256, bitLen % 256]

/-- Serialize a 32-bit word to big-endian bytes. -/
def wordToBytes (w : Nat) : List Nat :=
  [w / 2 ^ 24 % 256, w / 2 ^ 16 % 256, w / 2 ^ 8 % 256, w % 256]

/-- SHA-256 of a byte string (Go `sha256.Sum256`). -/
def sha256 (msg : List Nat) : List Nat :=
  let Hf := processBlocks sha256Init (sha256Pad msg)
  wordToBytes Hf.a ++ wordToBytes Hf.b ++ wordToBytes Hf.c ++ wordToBytes Hf.d ++
  wordToBytes Hf.e ++ wordToBytes Hf.f ++ wordToBytes Hf.g ++ wordToBytes Hf.h

/-- The well-known SHA-256 digest of the empty byte string, as listed in the
comment inside `InitChain`
(`e3b0c44298fc1c149afbf4c8996fb92427ae41e4649b934ca495991b7852b855`). -/
def emptyStringSha256 : List Nat :=
  [227, 176, 196, 66, 152, 252, 28, 20, 154, 251, 244, 200,
   153, 111, 185, 36, 39, 174, 65, 228, 100, 155, 147, 76,
   164, 149, 153, 27, 120, 82, 184, 85]

example : sha256 [] = emptyStringSha256 := by decide

/-! ## Data model

The fields of `BaseApp` mirror the fields of the Go `BaseApp` struct that the
ABCI methods under verification read, with the injected module collaborators
(init-chainer, block hooks, transaction decoder and executor, query handlers)
as function-valued fields and the multi-store abstracted by a type parameter
`S` (the store facade is an external collaborator). -/

/-- Evidence consensus parameters (`tmproto.EvidenceParams`), restricted to
the field read by `GetBlockRetentionHeight`. -/
structure EvidenceParams where
  maxAgeNumBlocks : Int
  deriving Repr, DecidableEq

/-- Consensus parameters (`tmproto.ConsensusParams`); the `Evidence` field is
a nil-able pointer, hence `Option`. -/
structure ConsensusParams where
  evidence : Option EvidenceParams
  deriving Repr, DecidableEq

/-- A store commit identifier (`storetypes.CommitID`): version plus hash. -/
structure CommitID where
  version : Int
  hash : List Nat
  deriving Repr, DecidableEq

/-- `CommitID.IsZero` (store types, outside this file set): a commit ID is
zero when the version is 0 and the hash is empty. -/
def CommitID.isZero (c : CommitID) : Bool :=
  c.version == 0 && c.hash == []

/-- A per-transaction execution result (`abci.ExecTxResult`), restricted to
the fields the claims mention. -/
structure ExecTxResult where
  code : Nat
  codespace : String
  gasWanted : Int
  gasUsed : Int
  deriving Repr, DecidableEq

/-- The root error codespace of the sdk error registry (`sdkerrors.RootCodespace`). -/
def rootCodespace : String := "sdk"

/-- Code of `sdkerrors.ErrTxDecode` (registered as code 2 in the sdk error
registry, outside this file set): the documented decode-error code. -/
def errTxDecodeCode : Nat := 2

/-- The synthetic result produced for a raw transaction that fails to decode:
`sdkerrors.ResponseExecTxResultWithEvents(sdkerrors.ErrTxDecode, 0, 0, nil, false)` —
zero gas wanted, zero gas used, the decode-error code. -/
def responseExecTxResultDecodeFailure : ExecTxResult :=
  { code := errTxDecodeCode, codespace := rootCodespace, gasWanted := 0, gasUsed := 0 }

/-- `abci.RequestFinalizeBlock`, restricted to the fields that
`internalFinalizeBlock` reads. -/
structure RequestFinalizeBlock where
  height : Int
  timeUnix : Int
  txs : List (List Nat)
  hash : List Nat
  deriving Repr, DecidableEq

/-- `abci.ResponseFinalizeBlock`, restricted to the fields assembled by
`internalFinalizeBlock` (events and tx events are strings here; their
payload is irrelevant to the claims). -/
structure ResponseFinalizeBlock where
  events : List String
  txResults : List ExecTxResult
  validatorUpdates : List Nat
  consensusParamUpdates : Option ConsensusParams
  appHash : List Nat
  deriving Repr, DecidableEq

/-- `abci.RequestInitChain`, restricted to the fields `InitChain` reads.
Validators are abstracted to their canonical identity (the concrete record
with pubkey and power lives outside this file set); `proto.Equal` becomes
equality and the canonical sort order becomes `≤` on `Nat`. -/
structure RequestInitChain where
  chainId : String
  timeUnix : Int
  initialHeight : Int
  consensusParams : Option ConsensusParams
  validators : List Nat
  deriving Repr, DecidableEq

/-- `abci.ResponseInitChain`.  `appHash` is a Go byte slice that is nil in
the zero value, hence `Option`. -/
structure ResponseInitChain where
  consensusParams : Option ConsensusParams
  validators : List Nat
  appHash : Option (List Nat)
  deriving Repr, DecidableEq

/-- `abci.RequestQuery`, restricted to the fields `Query` reads. -/
structure RequestQuery where
  data : List Nat
  path : String
  height : Int
  prove : Bool
  deriving Repr, DecidableEq

/-- `abci.ResponseQuery`, restricted to the fields the claims mention. -/
structure ResponseQuery where
  code : Nat
  codespace : String
  log : String
  height : Int
  value : List Nat
  deriving Repr, DecidableEq, Inhabited

/-- A registered sdk error (codespace, code, message), as produced by the
sdk error registry (outside this file set). -/
structure SDKError where
  codespace : String
  code : Nat
  msg : String
  deriving Repr, DecidableEq

/-- `sdkerrors.ErrInvalidRequest` (code 18), wrapped with a message. -/
def errInvalidRequest (msg : String) : SDKError := ⟨rootCodespace, 18, msg⟩

/-- `sdkerrors.ErrUnknownRequest` (code 6), wrapped with a message. -/
def errUnknownRequest (msg : String) : SDKError := ⟨rootCodespace, 6, msg⟩

/-- `sdkerrors.ErrInvalidHeight` (code 26), wrapped with a message. -/
def errInvalidHeight (msg : String) : SDKError := ⟨rootCodespace, 26, msg⟩

/-- `sdkerrors.ErrKeyNotFound` (code 22), wrapped with a message. -/
def errKeyNotFound (msg : String) : SDKError := ⟨rootCodespace, 22, msg⟩

/-- `sdkerrors.ErrUnauthorized` (code 4), wrapped with a message. -/
def errUnauthorized (msg : String) : SDKError := ⟨rootCodespace, 4, msg⟩

/-- `sdkerrors.ErrPanic` (code 111), wrapped with a message. -/
def errPanicRecovered (msg : String) : SDKError := ⟨rootCodespace, 111, msg⟩

/-- An unregistered (internal) error surfaced through `QueryResult`
(ABCI code 1). -/
def errInternal (msg : String) : SDKError := ⟨"undefined", 1, msg⟩

/-- `sdkerrors.QueryResult(err, trace)`: the structured error response for a
query. -/
def queryResultErr (e : SDKError) : ResponseQuery :=
  { code := e.code, codespace := e.codespace, log := e.msg, height := 0, value := [] }

/-- The gRPC status code attached to a handler error (the cases
`gRPCErrorToSDKError` distinguishes); `notStatus` models an error that is
not a gRPC status at all. -/
inductive GrpcCode where
  | notFound
  | invalidArgument
  | failedPrecondition
  | unauthenticated
  | other
  | notStatus
  deriving Repr, DecidableEq

/-- `gRPCErrorToSDKError`: map a handler error to a registered sdk error. -/
def gRPCErrorToSDKError (c : GrpcCode) (msg : String) : SDKError :=
  match c with
  | .notStatus => errInvalidRequest msg
  | .notFound => errKeyNotFound msg
  | .invalidArgument => errInvalidRequest msg
  | .failedPrecondition => errInvalidRequest msg
  | .unauthenticated => errUnauthorized msg
  | .other => errUnknownRequest msg

/-- The outcome of running a gRPC query handler: a response, a returned
error carrying a gRPC status code, or a Go panic. -/
inductive GrpcOutcome where
  | ok (res : ResponseQuery)
  | err (code : GrpcCode) (msg : String)
  | thrown (msg : String)
  deriving Repr, DecidableEq

/-- The outcome of a collaborator call that can either return a value,
return an error, or panic. -/
inductive HandlerOutcome (α : Type) where
  | ok (value : α)
  | err (msg : String)
  | thrown (msg : String)
  deriving Repr, DecidableEq

/-- The query context built by `CreateQueryContext`: a branched historical
store view plus the resolved height. -/
structure QueryContext (S : Type) where
  store : S
  height : Int

/-- The baseapp state and its injected collaborators, over an abstract
multi-store type `S`. -/
structure BaseApp (S : Type) where
  /-- `app.chainID`. -/
  chainID : String
  /-- `app.initialHeight` (set by `InitChain` from the request). -/
  initialHeight : Int
  /-- `app.cms.LastCommitID()`; its version is `app.LastBlockHeight()`. -/
  lastCommitID : CommitID
  /-- `app.minRetainBlocks` (uint64). -/
  minRetainBlocks : Nat
  /-- `app.haltHeight` (uint64). -/
  haltHeight : Nat
  /-- `app.haltTime` (uint64, unix seconds). -/
  haltTime : Nat
  /-- `app.GetConsensusParams(...)`: the consensus parameters as read from
  the parameter store (nil-able pointer). -/
  consensusParams : Option ConsensusParams
  /-- `app.snapshotManager.GetSnapshotBlockRetentionHeights()` when a
  snapshot manager is configured; `none` when `app.snapshotManager == nil`. -/
  snapshotRetentionSpan : Option Int
  /-- The root multi-store contents (`app.cms`). -/
  rootStore : S
  /-- Branching (cache-wrapping) a store, as done by `app.setState`. -/
  branchOf : S → S
  /-- The `finalize` mode state's branched store, `none` when
  `app.finalizeBlockState == nil`. -/
  finalizeBranch : Option S
  /-- `app.initChainer` (nil-able). -/
  initChainer : Option (RequestInitChain → ResponseInitChain)
  /-- `app.preBlocker` result for a request: events, or an error. -/
  preBlock : RequestFinalizeBlock → Except String (List String)
  /-- `app.beginBlocker` result for a request: events, or an error. -/
  beginBlock : RequestFinalizeBlock → Except String (List String)
  /-- `app.endBlocker` result: events and validator updates, or an error. -/
  endBlock : Except String (List String × List Nat)
  /-- `app.txDecoder`: whether raw bytes decode to a well-formed transaction. -/
  txDecoder : List Nat → Bool
  /-- `app.deliverTx`: execute a decoded transaction against the finalize
  branch, returning the updated branch and the per-tx result. -/
  deliverTx : S → List Nat → S × ExecTxResult
  /-- `app.grpcQueryRouter.Route(path)`: the registered gRPC query handler
  for a path, when any. -/
  grpcQueryRouter : String → Option (QueryContext S → RequestQuery → GrpcOutcome)
  /-- `app.Simulate(txBytes)` followed by `codec.ProtoMarshalJSON`: the
  encoded simulation response, an error, or a panic. -/
  simulate : List Nat → HandlerOutcome (List Nat)
  /-- `app.version`, as the byte string `[]byte(app.version)`. -/
  version : List Nat
  /-- Whether `app.cms` implements `sdk.Queryable`. -/
  cmsQueryable : Bool
  /-- `queryable.Query(req)` on the multi-store; may panic (`.error`). -/
  storeQuery : RequestQuery → Except String ResponseQuery
  /-- `app.addrPeerFilter` (nil-able). -/
  addrPeerFilter : Option (String → ResponseQuery)
  /-- `app.idPeerFilter` (nil-able). -/
  idPeerFilter : Option (String → ResponseQuery)
  /-- `qms.CacheMultiStoreWithVersion(height)`: a branched view of the store
  at a historical version, or an error. -/
  cacheMultiStoreWithVersion : Int → Except String S

/-- `app.LastBlockHeight()` = `app.cms.LastCommitID().Version`. -/
def BaseApp.lastBlockHeight {S : Type} (app : BaseApp S) : Int :=
  app.lastCommitID.version

/-! ## GetBlockRetentionHeight -/

/-- The local `minNonZero` closure inside `GetBlockRetentionHeight`. -/
def minNonZero (x y : Int) : Int :=
  if x = 0 then y
  else if y = 0 then x
  else if x < y then x
  else y

/-- `GetBlockRetentionHeight`: the height below which blocks may be pruned,
from the evidence-age parameter, the snapshot retention span and the
operator-configured `minRetainBlocks`. -/
def GetBlockRetentionHeight {S : Type} (app : BaseApp S) (commitHeight : Int) : Int :=
  if app.minRetainBlocks = 0 then 0
  else
    let retentionHeight : Int :=
      match app.consensusParams with
      | some cp =>
          match cp.evidence with
          | some ev => if ev.maxAgeNumBlocks > 0 then commitHeight - ev.maxAgeNumBlocks else 0
          | none => 0
      | none => 0
    let retentionHeight :=
      match app.snapshotRetentionSpan with
      | some snapshotRetentionHeights =>
          if snapshotRetentionHeights > 0 then
            minNonZero retentionHeight (commitHeight - snapshotRetentionHeights)
          else retentionHeight
      | none => retentionHeight
    let v := commitHeight - int64OfNat app.minRetainBlocks
    let retentionHeight := minNonZero retentionHeight v
    if retentionHeight ≤ 0 then 0 else retentionHeight

/-- The minimum of the non-zero entries of a list, 0 when there are none:
the spec's "minimum of all configured non-zero constraints" where "a
zero/unset constraint is excluded from the minimum". -/
def minOfNonZero (l : List Int) : Int :=
  match l.filter (fun x => decide (x ≠ 0)) with
  | [] => 0
  | x :: xs => xs.foldl min x

/-- Spec-worded retention height (for the refinement claim C4): 0 when
`minRetainBlocks` is 0; otherwise the minimum over the non-zero constraints
among the evidence-age term (when configured with positive max age), the
snapshot term (when a manager is configured and the span is positive) and
the operator term, floored at 0 when non-positive. -/
def retentionHeightSpec {S : Type} (app : BaseApp S) (commitHeight : Int) : Int :=
  if app.minRetainBlocks = 0 then 0
  else
    let evidenceTerm : List Int :=
      match app.consensusParams with
      | some cp =>
          match cp.evidence with
          | some ev =>
              if ev.maxAgeNumBlocks > 0 then [commitHeight - ev.maxAgeNumBlocks] else []
          | none => []
      | none => []
    let snapshotTerm : List Int :=
      match app.snapshotRetentionSpan with
      | some span => if span > 0 then [commitHeight - span] else []
      | none => []
    let operatorTerm : List Int := [commitHeight - int64OfNat app.minRetainBlocks]
    let m := minOfNonZero (evidenceTerm ++ snapshotTerm ++ operatorTerm)
    if m ≤ 0 then 0 else m

/-! ## FinalizeBlock

`internalFinalizeBlock` is embedded as a pure function from the app value, a
cancellation signal and the request to a result plus the updated app value.
The caller-supplied Go context is modelled by the signal
`done : Nat → Bool`: `done i` is whether `ctx.Done()` has fired by the time
the `i`-th cancellation check runs (check 0 is the one after begin-block,
check `i + 1` the one after the `i`-th transaction, and check `n + 1`, for
`n` transactions, the one after end-block). -/

/-- The error every `<-ctx.Done()` branch returns (`ctx.Err()`). -/
def contextCancelledErr : String := "context canceled"

/-- `checkHalt`: halt when a configured halt height or halt time is
exceeded.  Go compares `uint64(height) > app.haltHeight` (an int64-to-uint64
conversion) and `time.Unix() > int64(app.haltTime)`. -/
def checkHalt {S : Type} (app : BaseApp S) (height : Int) (timeUnix : Int) : Except String Unit :=
  let halt :=
    if app.haltHeight > 0 && uint64OfInt height > app.haltHeight then true
    else if app.haltTime > 0 && timeUnix > int64OfNat app.haltTime then true
    else false
  if halt then .error "halt per configuration" else .ok ()

/-- The expected height computed inside `validateFinalizeBlockHeight`: the
configured initial height when there is no previous commit and the initial
height exceeds 1, the last committed height plus one otherwise. -/
def expectedHeight {S : Type} (app : BaseApp S) : Int :=
  if app.lastBlockHeight = 0 ∧ app.initialHeight > 1 then app.initialHeight
  else app.lastBlockHeight + 1

/-- `validateFinalizeBlockHeight`: reject heights below 1 and heights other
than the expected height. -/
def validateFinalizeBlockHeight {S : Type} (app : BaseApp S) (reqHeight : Int) :
    Except String Unit :=
  if reqHeight < 1 then .error "invalid height"
  else if reqHeight ≠ expectedHeight app then .error "invalid height: expected mismatch"
  else .ok ()

/-- The per-transaction loop of `internalFinalizeBlock`: decode each raw
transaction, execute it (or synthesize the decode-failure result), and
check the cancellation signal after every transaction.  `k` is the index of
the next cancellation check and `acc` the results gathered so far (in
reverse). -/
def execTxsLoop {S : Type} (app : BaseApp S) (done : Nat → Bool) :
    List (List Nat) → S → Nat → List ExecTxResult →
    Except String (List ExecTxResult × S)
  | [], branch, _, acc => .ok (acc.reverse, branch)
  | rawTx :: rest, branch, k, acc =>
      let step : S × ExecTxResult :=
        if app.txDecoder rawTx then app.deliverTx branch rawTx
        else (branch, responseExecTxResultDecodeFailure)
      if done k then .error contextCancelledErr
      else execTxsLoop app done rest step.1 (k + 1) (step.2 :: acc)

/-- `app.setState(execModeFinalize, header)`: discard the finalize state and
rebuild it as a fresh branch of the root store. -/
def setFinalizeState {S : Type} (app : BaseApp S) : BaseApp S :=
  { app with finalizeBranch := some (app.branchOf app.rootStore) }

/-- `internalFinalizeBlock`: halt check, height validation, state setup,
pre-block, begin-block, the transaction loop and end-block, with the
cancellation signal checked after begin-block, after every transaction and
after end-block.  Returns the response (or the error) together with the
updated app value; the root store is never written here. -/
def internalFinalizeBlock {S : Type} (app : BaseApp S) (done : Nat → Bool)
    (req : RequestFinalizeBlock) :
    Except String ResponseFinalizeBlock × BaseApp S :=
  match checkHalt app req.height req.timeUnix with
  | .error e => (.error e, app)
  | .ok _ =>
  match validateFinalizeBlockHeight app req.height with
  | .error e => (.error e, app)
  | .ok _ =>
    -- The finalize state is rebuilt here when nil (block replay): the
    -- branched view used below is the existing branch or a fresh branch of
    -- the root store; the collaborators are read from the unchanged fields.
    let branch0 :=
      match app.finalizeBranch with
      | some b => b
      | none => app.branchOf app.rootStore
    let app1 := { app with finalizeBranch := some branch0 }
    match app.preBlock req with
    | .error e => (.error e, app1)
    | .ok preblockEvents =>
    match app.beginBlock req with
    | .error e => (.error e, app1)
    | .ok beginBlockEvents =>
    if done 0 then (.error contextCancelledErr, app1)
    else
      match execTxsLoop app done req.txs branch0 1 [] with
      | .error e => (.error e, app1)
      | .ok (txResults, branch1) =>
        let app2 := { app with finalizeBranch := some branch1 }
        match app.endBlock with
        | .error e => (.error e, app2)
        | .ok (endBlockEvents, validatorUpdates) =>
          if done (req.txs.length + 1) then (.error contextCancelledErr, app2)
          else
            (.ok { events := preblockEvents ++ beginBlockEvents ++ endBlockEvents,
                   txResults := txResults,
                   validatorUpdates := validatorUpdates,
                   consensusParamUpdates := app.consensusParams,
                   appHash := [] }, app2)

/-- `workingHash`: write the finalize branch through to the root multi-store
and return the working hash.  The hash value itself comes from the store
facade; what matters here is the write-through. -/
def workingHash {S : Type} (hashOf : S → List Nat) (app : BaseApp S) :
    List Nat × BaseApp S :=
  match app.finalizeBranch with
  | some branch => (hashOf branch, { app with rootStore := branch })
  | none => (hashOf app.rootStore, app)

/-- The tail of `FinalizeBlock` around `internalFinalizeBlock` (both on the
direct path and on the optimistic-execution path): run the block, and only
when a response was produced write the branch through via `workingHash` and
set the response's app hash. -/
def finalizeWithSignal {S : Type} (hashOf : S → List Nat) (app : BaseApp S)
    (done : Nat → Bool) (req : RequestFinalizeBlock) :
    Option ResponseFinalizeBlock × Option String × BaseApp S :=
  match internalFinalizeBlock app done req with
  | (.error e, app') => (none, some e, app')
  | (.ok res, app') =>
      let wh := workingHash hashOf app'
      (some { res with appHash := wh.1 }, none, wh.2)

/-! ## InitChain -/

/-- Insert into a sorted list (ascending). -/
def insertSorted (x : Nat) : List Nat → List Nat
  | [] => [x]
  | y :: ys => if x ≤ y then x :: y :: ys else y :: insertSorted x ys

/-- `sort.Sort(abci.ValidatorUpdates(...))`: canonical sorting of a
validator set.  The comparison itself lives in the external consensus
library; on the abstracted validator identities it is `≤`. -/
def canonicalSortVals (l : List Nat) : List Nat :=
  l.foldr insertSorted []

/-- The validator sanity check inside `InitChain`: when the request supplies
a validator set, its length must match the initializer-returned set and,
after canonical sorting, the two must agree element by element
(`proto.Equal` on each pair); any mismatch panics. -/
def validatorSetCheck (reqVals resVals : List Nat) : Except String Unit :=
  if reqVals.length > 0 then
    if reqVals.length ≠ resVals.length then
      .error "len RequestInitChain.Validators not equal len GenesisValidators"
    else
      let sortedReq := canonicalSortVals reqVals
      let sortedRes := canonicalSortVals resVals
      if (sortedRes.zip sortedReq).all (fun p => p.1 == p.2) then .ok ()
      else .error "genesisValidators mismatch"
  else .ok ()

/-- `InitChain`: chain-id check, initial-height recording, state setup,
consensus-parameter storage, the application initializer (with the
validator sanity check) and the apphash computation.  A Go panic is
`.error`. -/
def InitChain {S : Type} (app : BaseApp S) (req : RequestInitChain) :
    Except String (ResponseInitChain × BaseApp S) :=
  if req.chainId ≠ app.chainID then .error "invalid chain-id on InitChain"
  else
    -- The statements up to the initializer call only touch initialHeight,
    -- the mode states and the stored consensus params; the collaborators
    -- and the last commit ID are read from the unchanged fields.
    -- req.InitialHeight > 1 additionally calls cms.SetInitialVersion (an
    -- external store-facade operation; a failure there panics).
    let app1 := setFinalizeState { app with initialHeight := req.initialHeight }
    let app1 :=
      match req.consensusParams with
      | some cp => { app1 with consensusParams := some cp }
      | none => app1
    match app.initChainer with
    | none => .ok ({ consensusParams := none, validators := [], appHash := none }, app1)
    | some initChainer =>
      let res := initChainer req
      match validatorSetCheck req.validators res.validators with
      | .error e => .error e
      | .ok _ =>
        let appHash :=
          if app.lastCommitID.isZero then sha256 []
          else app.lastCommitID.hash
        .ok ({ consensusParams := res.consensusParams,
               validators := res.validators,
               appHash := some appHash }, app1)

/-! ## Query and CreateQueryContext -/

/-- `checkNegativeHeight`. -/
def checkNegativeHeight (height : Int) : Except SDKError Unit :=
  if height < 0 then
    .error (errInvalidRequest "cannot query with height < 0; please provide a valid height")
  else .ok ()

/-- `CreateQueryContext`: build an isolated read context at a requested
historical height.  Rejects negative heights, any height before the first
commit, future heights and proof requests at resolved height at most 1. -/
def CreateQueryContext {S : Type} (app : BaseApp S) (height : Int) (prove : Bool) :
    Except SDKError (QueryContext S) :=
  match checkNegativeHeight height with
  | .error e => .error e
  | .ok _ =>
    let lastBlockHeight := app.lastBlockHeight
    if lastBlockHeight = 0 then
      .error (errInvalidHeight "app is not ready; please wait for first block")
    else if height > lastBlockHeight then
      .error (errInvalidHeight "cannot query with height in the future; please provide a valid height")
    else
      let height := if height = 0 then lastBlockHeight else height
      if height ≤ 1 ∧ prove then
        .error (errInvalidRequest "cannot query with proof when height <= 1; please provide a valid height")
      else
        match app.cacheMultiStoreWithVersion height with
        | .error _ => .error (errInvalidRequest "failed to load state at height")
        | .ok ms => .ok { store := ms, height := height }

/-- `strings.Split(s, "/")` on the underlying characters: all segments
between slashes, empty segments kept, one (possibly empty) segment when
there is no slash. -/
def splitOnSlash : List Char → List (List Char)
  | [] => [[]]
  | c :: rest =>
      let r := splitOnSlash rest
      if c = '/' then [] :: r
      else
        match r with
        | s :: ss => (c :: s) :: ss
        | [] => [[c]]

/-- `SplitABCIQueryPath`: split on the slash, dropping a leading empty
segment. -/
def SplitABCIQueryPath (requestPath : String) : List String :=
  let path := (splitOnSlash requestPath.data).map String.mk
  match path with
  | "" :: rest => rest
  | _ => path

/-- `handleQueryGRPC`: build a query context and run the registered
handler; handler errors become structured sdk errors carrying the request
height, handler panics propagate to the recovery boundary in `Query`. -/
def handleQueryGRPC {S : Type} (app : BaseApp S)
    (handler : QueryContext S → RequestQuery → GrpcOutcome) (req : RequestQuery) :
    Except String ResponseQuery :=
  match CreateQueryContext app req.height req.prove with
  | .error e => .ok (queryResultErr e)
  | .ok ctx =>
    match handler ctx req with
    | .thrown m => .error m
    | .err c msg => .ok { queryResultErr (gRPCErrorToSDKError c msg) with height := req.height }
    | .ok res => .ok res

/-- `handleQueryApp`: the "/app" prefix — dry-run simulation or build
version. -/
def handleQueryApp {S : Type} (app : BaseApp S) (path : List String) (req : RequestQuery) :
    Except String ResponseQuery :=
  match path with
  | _ :: second :: _ =>
    if second = "simulate" then
      match app.simulate req.data with
      | .thrown m => .error m
      | .err m => .ok (queryResultErr (errInternal m))
      | .ok bz => .ok { code := 0, codespace := rootCodespace, log := "",
                        height := req.height, value := bz }
    else if second = "version" then
      .ok { code := 0, codespace := rootCodespace, log := "",
            height := req.height, value := app.version }
    else
      .ok (queryResultErr (errUnknownRequest "unknown query"))
  | _ =>
    .ok (queryResultErr (errUnknownRequest
      "expected second parameter to be either simulate or version, neither was present"))

/-- `handleQueryStore`: the "/store" prefix — raw store queries, with the
proof-height check; the store query itself may panic. -/
def handleQueryStore {S : Type} (app : BaseApp S) (path : List String) (req : RequestQuery) :
    Except String ResponseQuery :=
  if !app.cmsQueryable then
    .ok (queryResultErr (errUnknownRequest "multistore does not support queries"))
  else
    let req := { req with path := "/" ++ String.intercalate "/" path.tail }
    if req.height ≤ 1 ∧ req.prove then
      .ok (queryResultErr (errInvalidRequest
        "cannot query with proof when height <= 1; please provide a valid height"))
    else
      match app.storeQuery req with
      | .error m => .error m
      | .ok resp => .ok { resp with height := req.height }

/-- `FilterPeerByAddrPort`: zero response when no filter is registered. -/
def FilterPeerByAddrPort {S : Type} (app : BaseApp S) (info : String) : ResponseQuery :=
  match app.addrPeerFilter with
  | some f => f info
  | none => default

/-- `FilterPeerByID`: zero response when no filter is registered. -/
def FilterPeerByID {S : Type} (app : BaseApp S) (info : String) : ResponseQuery :=
  match app.idPeerFilter with
  | some f => f info
  | none => default

/-- `handleQueryP2P`: the "/p2p" prefix — peer filtering. -/
def handleQueryP2P {S : Type} (app : BaseApp S) (path : List String) : ResponseQuery :=
  match path with
  | _ :: cmd :: typ :: arg :: _ =>
    if cmd = "filter" then
      if typ = "addr" then FilterPeerByAddrPort app arg
      else if typ = "id" then FilterPeerByID app arg
      else default
    else queryResultErr (errUnknownRequest "expected second parameter to be filter")
  | _ =>
    queryResultErr (errUnknownRequest "path should be p2p filter addr-or-id parameter")

/-- The body of `Query` inside the panic-recovery boundary: height
injection, broadcast rejection, gRPC routing, then slash-delimited
dispatch.  A `.error` is a Go panic travelling up to the boundary. -/
def queryInner {S : Type} (app : BaseApp S) (req0 : RequestQuery) :
    Except String ResponseQuery :=
  let req := if req0.height = 0 then { req0 with height := app.lastBlockHeight } else req0
  if req.path = "/cosmos.tx.v1beta1.Service/BroadcastTx" then
    .ok (queryResultErr (errInvalidRequest "cant route a broadcast tx message"))
  else
    match app.grpcQueryRouter req.path with
    | some grpcHandler => handleQueryGRPC app grpcHandler req
    | none =>
      match SplitABCIQueryPath req.path with
      | [] => .ok (queryResultErr (errUnknownRequest "no query path provided"))
      | p0 :: rest =>
        if p0 = "app" then handleQueryApp app (p0 :: rest) req
        else if p0 = "store" then handleQueryStore app (p0 :: rest) req
        else if p0 = "p2p" then .ok (handleQueryP2P app (p0 :: rest))
        else .ok (queryResultErr (errUnknownRequest "unknown query path"))

/-- `Query`: the deferred `recover` at the top converts any panic raised
during query processing into a structured error response. -/
def Query {S : Type} (app : BaseApp S) (req : RequestQuery) : ResponseQuery :=
  match queryInner app req with
  | .error r => queryResultErr (errPanicRecovered r)
  | .ok res => res

/-! ## Concrete instances used to evaluate the definitions -/

/-- A concrete app over the unit store with inert collaborators; the
concrete inputs below adjust individual fields. -/
def unitApp : BaseApp Unit where
  chainID := "test-chain"
  initialHeight := 0
  lastCommitID := ⟨0, []⟩
  minRetainBlocks := 0
  haltHeight := 0
  haltTime := 0
  consensusParams := none
  snapshotRetentionSpan := none
  rootStore := ()
  branchOf := id
  finalizeBranch := none
  initChainer := none
  preBlock := fun _ => .ok []
  beginBlock := fun _ => .ok []
  endBlock := .ok ([], [])
  txDecoder := fun _ => true
  deliverTx := fun s _ => (s, ⟨0, "", 0, 0⟩)
  grpcQueryRouter := fun _ => none
  simulate := fun _ => .ok []
  version := []
  cmsQueryable := false
  storeQuery := fun _ => .ok default
  addrPeerFilter := none
  idPeerFilter := none
  cacheMultiStoreWithVersion := fun _ => .ok ()

/-! ## Helper lemmas -/

/-- `minNonZero` chained twice agrees with the minimum of the non-zero
entries of the three-element list. -/
theorem minNonZero_triple (x y z : Int) :
    minNonZero (minNonZero x y) z = minOfNonZero [x, y, z] := by
  unfold minNonZero minOfNonZero
  by_cases hx : x = 0 <;> by_cases hy : y = 0 <;> by_cases hz : z = 0 <;>
    simp [hx, hy, hz, List.filter, Int.min_def] <;> split_ifs <;> omega

/-- A zero head is dropped from the non-zero minimum. -/
theorem minOfNonZero_cons_zero (l : List Int) :
    minOfNonZero (0 :: l) = minOfNonZero l := by
  simp [minOfNonZero, List.filter]

/-- A zero middle entry is dropped from the non-zero minimum. -/
theorem minOfNonZero_middle_zero (x z : Int) :
    minOfNonZero [x, 0, z] = minOfNonZero [x, z] := by
  by_cases hx : x = 0 <;> simp [minOfNonZero, List.filter, hx]

/-- `minNonZero` with a zero first argument yields the second. -/
theorem minNonZero_zero_left (y : Int) : minNonZero 0 y = y := by
  simp [minNonZero]

/-- The non-zero minimum of a singleton is its entry. -/
theorem minOfNonZero_singleton (v : Int) : minOfNonZero [v] = v := by
  by_cases hv : v = 0 <;> simp [minOfNonZero, List.filter, hv]

/-- The non-zero minimum of a pair agrees with `minNonZero`. -/
theorem minOfNonZero_pair (x y : Int) : minOfNonZero [x, y] = minNonZero x y := by
  unfold minNonZero minOfNonZero
  by_cases hx : x = 0 <;> by_cases hy : y = 0 <;>
    (simp [hx, hy, List.filter, Int.min_def]; try (split_ifs <;> omega))

/-! ## Claims C3 and C4: block retention height -/

/-- The app of the spec scenario behind C3: evidence max age 100000, no
snapshot manager, `minRetainBlocks = 0`. -/
def retentionScenarioApp : BaseApp Unit :=
  { unitApp with consensusParams := some ⟨some ⟨100000⟩⟩ }

/-- C3 (counterexample): with evidence max-age 100000, commit height
150000, no snapshot manager and `minRetainBlocks = 0`,
`GetBlockRetentionHeight` does not return 50000 — `minRetainBlocks = 0`
short-circuits the whole computation. -/
theorem retentionHeight_scenario_counterexample :
    GetBlockRetentionHeight retentionScenarioApp 150000 ≠ 50000 := by
  decide

/-- C3 (amended): with evidence max-age 100000, commit height 150000, no
snapshot manager and `minRetainBlocks = 0`, `GetBlockRetentionHeight`
returns 0 (pruning disabled). -/
theorem retentionHeight_scenario_amended :
    GetBlockRetentionHeight retentionScenarioApp 150000 = 0 := by
  decide

/-- C4: `GetBlockRetentionHeight` returns 0 when `minRetainBlocks` is 0
regardless of the other inputs, otherwise equals the spec-worded minimum
over the non-zero constraints (evidence age when configured and positive,
snapshot span when configured and positive, operator retention), and is
never negative — a non-positive combined result is floored to 0. -/
theorem retentionHeight_refines_spec {S : Type} (app : BaseApp S) (commitHeight : Int) :
    GetBlockRetentionHeight app commitHeight = retentionHeightSpec app commitHeight ∧
    0 ≤ GetBlockRetentionHeight app commitHeight ∧
    (app.minRetainBlocks = 0 → GetBlockRetentionHeight app commitHeight = 0) := by
  refine ⟨?_, ?_, ?_⟩
  · unfold GetBlockRetentionHeight retentionHeightSpec
    by_cases hmr : app.minRetainBlocks = 0
    · simp [hmr]
    · simp only [hmr, if_false]
      rcases hcp : app.consensusParams with _ | cp
      · rcases hsp : app.snapshotRetentionSpan with _ | span
        · simp [minNonZero_zero_left, minOfNonZero_singleton]
        · by_cases hpos : span > 0 <;>
            (simp [hpos, minNonZero_zero_left, minOfNonZero_singleton, minOfNonZero_pair])
      · rcases hev : cp.evidence with _ | ev
        · rcases hsp : app.snapshotRetentionSpan with _ | span
          · simp [hev, minNonZero_zero_left, minOfNonZero_singleton]
          · by_cases hpos : span > 0 <;>
              (simp [hev, hpos, minNonZero_zero_left, minOfNonZero_singleton, minOfNonZero_pair])
        · by_cases hma : 0 < ev.maxAgeNumBlocks <;>
            rcases hsp : app.snapshotRetentionSpan with _ | span
          · simp [hev, hma, minOfNonZero_pair]
          · by_cases hpos : span > 0 <;>
              (simp [hev, hma, hpos, minNonZero_triple, minOfNonZero_pair])
          · simp [hev, hma, minNonZero_zero_left, minOfNonZero_singleton]
          · by_cases hpos : span > 0 <;>
              (simp [hev, hma, hpos, minNonZero_zero_left, minOfNonZero_singleton,
                     minOfNonZero_pair])
  · unfold GetBlockRetentionHeight
    dsimp only
    split_ifs <;> omega
  · intro hmr
    simp [GetBlockRetentionHeight, hmr]

/-- An app on which C4 is exercised concretely: evidence max age 100000 and
`minRetainBlocks = 100000`, where the evidence constraint binds. -/
def retentionWitnessApp : BaseApp Unit :=
  { unitApp with consensusParams := some ⟨some ⟨100000⟩⟩, minRetainBlocks := 100000 }

/-- C4 witness: the refinement evaluated at a concrete app and commit
height. -/
theorem retentionHeight_refines_spec_witness :
    GetBlockRetentionHeight retentionWitnessApp 150000 =
      retentionHeightSpec retentionWitnessApp 150000 ∧
    0 ≤ GetBlockRetentionHeight retentionWitnessApp 150000 ∧
    (retentionWitnessApp.minRetainBlocks = 0 →
      GetBlockRetentionHeight retentionWitnessApp 150000 = 0) :=
  retentionHeight_refines_spec retentionWitnessApp 150000

/-! ## Claim C2: FinalizeBlock height validation -/

/-- C2: the height validation accepts exactly the heights that are at least
1 and equal to the expected height (the configured initial height when no
prior commit exists and the initial height exceeds 1, the last committed
height plus one otherwise); for any other height `internalFinalizeBlock`
returns an error with the app state unchanged. -/
theorem finalizeBlock_height_validation {S : Type} (app : BaseApp S)
    (done : Nat → Bool) (req : RequestFinalizeBlock) :
    (validateFinalizeBlockHeight app req.height = .ok () ↔
      (1 ≤ req.height ∧ req.height = expectedHeight app)) ∧
    ((req.height < 1 ∨ req.height ≠ expectedHeight app) →
      ∃ e, internalFinalizeBlock app done req = (.error e, app)) := by
  constructor
  · unfold validateFinalizeBlockHeight
    split_ifs with h1 h2
    · simp; omega
    · simp; omega
    · simp; omega
  · intro hbad
    have hv : ∃ e, validateFinalizeBlockHeight app req.height = .error e := by
      unfold validateFinalizeBlockHeight
      split_ifs with h1 h2
      · exact ⟨_, rfl⟩
      · exact ⟨_, rfl⟩
      · exact absurd hbad (by push_neg; omega)
    unfold internalFinalizeBlock
    rcases hch : checkHalt app req.height req.timeUnix with e | u
    · exact ⟨e, by simp⟩
    · obtain ⟨e, hveq⟩ := hv
      exact ⟨e, by simp [hveq]⟩

/-- An app as it stands right after `InitChain` with initial height 5 and
no prior commit. -/
def genesisApp5 : BaseApp Unit := { unitApp with initialHeight := 5 }

/-- C2 witness: after `InitChain` with initial height 5 and no commits,
height 5 passes validation and height 6 makes `internalFinalizeBlock`
error without touching the state. -/
theorem finalizeBlock_height_validation_witness :
    validateFinalizeBlockHeight genesisApp5 5 = .ok () ∧
    ∃ e, internalFinalizeBlock genesisApp5 (fun _ => false) ⟨6, 0, [], []⟩ =
      (.error e, genesisApp5) :=
  ⟨((finalizeBlock_height_validation genesisApp5 (fun _ => false) ⟨5, 0, [], []⟩).1).mpr
      (by constructor <;> decide),
   (finalizeBlock_height_validation genesisApp5 (fun _ => false) ⟨6, 0, [], []⟩).2
      (by right; decide)⟩

/-! ## Claim C10: queries before the first commit -/

/-- C10: while the store's latest committed version is 0, building a query
context fails for every requested height, and for every non-negative
height — including 0 — the failure is the structured "not ready" error, so
no query needing a state context can succeed before the first commit. -/
theorem createQueryContext_not_ready {S : Type} (app : BaseApp S)
    (hlatest : app.lastBlockHeight = 0) :
    (∀ h p, ∃ e, CreateQueryContext app h p = .error e) ∧
    (∀ h p, 0 ≤ h → CreateQueryContext app h p =
      .error (errInvalidHeight "app is not ready; please wait for first block")) := by
  constructor
  · intro h p
    unfold CreateQueryContext checkNegativeHeight
    by_cases hneg : h < 0
    · exact ⟨errInvalidRequest "cannot query with height < 0; please provide a valid height",
        by simp [hneg]⟩
    · exact ⟨errInvalidHeight "app is not ready; please wait for first block",
        by simp [hneg, hlatest]⟩
  · intro h p hpos
    unfold CreateQueryContext checkNegativeHeight
    have hneg : ¬ h < 0 := by omega
    simp [hneg, hlatest]

/-- C10 witness: on the fresh app (no commit) the query context at
height 0 fails with the "not ready" error. -/
theorem createQueryContext_not_ready_witness :
    (∃ e, CreateQueryContext unitApp 0 false = .error e) ∧
    CreateQueryContext unitApp 0 false =
      .error (errInvalidHeight "app is not ready; please wait for first block") :=
  ⟨(createQueryContext_not_ready unitApp rfl).1 0 false,
   (createQueryContext_not_ready unitApp rfl).2 0 false (by decide)⟩

/-! ## Claim C5: the InitChain application hash -/

/-- C5 (counterexample): on a fresh app with no committed state (zero last
commit ID) but no configured init-chainer, `InitChain` takes the early
return and hands back the zero response, whose application hash is nil —
not the SHA-256 digest of the empty byte string. -/
theorem initChain_nil_apphash_counterexample :
    unitApp.lastCommitID.isZero = true ∧
    InitChain unitApp ⟨"test-chain", 0, 1, none, []⟩ =
      .ok ({ consensusParams := none, validators := [], appHash := none },
           { unitApp with initialHeight := 1, finalizeBranch := some () }) :=
  ⟨rfl, rfl⟩

/-- C5 (amended): when an init-chainer is configured and `InitChain`
returns, the returned application hash is never nil: it is the SHA-256
digest of the empty byte string (the well-known constant) when no state has
ever been committed, the last committed hash otherwise. -/
theorem initChain_apphash_amended {S : Type} (app : BaseApp S) (req : RequestInitChain)
    (f : RequestInitChain → ResponseInitChain) (resp : ResponseInitChain) (app' : BaseApp S)
    (hic : app.initChainer = some f)
    (h : InitChain app req = .ok (resp, app')) :
    resp.appHash ≠ none ∧
    (app.lastCommitID.isZero = true → resp.appHash = some (sha256 [])) ∧
    (app.lastCommitID.isZero = false → resp.appHash = some app.lastCommitID.hash) ∧
    sha256 [] = emptyStringSha256 := by
  unfold InitChain at h
  by_cases hcid : req.chainId = app.chainID
  · simp only [hcid, ne_eq, not_true_eq_false, if_false, ite_false] at h
    rw [hic] at h
    dsimp only at h
    rcases hvc : validatorSetCheck req.validators ((f req).validators) with e | u <;>
      rw [hvc] at h <;> dsimp only at h
    · exact absurd h (by simp)
    · rcases hz : app.lastCommitID.isZero <;> simp only [hz] at h <;>
        (injection h with h1; injection h1 with hresp happ; subst hresp) <;>
        exact ⟨by simp, by simp [hz], by simp [hz], by decide⟩
  · simp [hcid] at h

/-- A fresh app with an init-chainer that returns no validators. -/
def initChainApp : BaseApp Unit :=
  { unitApp with
      initChainer := some (fun _ => { consensusParams := none, validators := [], appHash := none }) }

/-- The response `InitChain` produces on `initChainApp`. -/
def initChainResp : ResponseInitChain :=
  { consensusParams := none, validators := [], appHash := some (sha256 []) }

/-- C5 witness: on a fresh chain with an init-chainer configured, the
returned apphash is the digest of the empty byte string and is not nil. -/
theorem initChain_apphash_amended_witness :
    initChainResp.appHash ≠ none ∧
    (initChainApp.lastCommitID.isZero = true → initChainResp.appHash = some (sha256 [])) ∧
    (initChainApp.lastCommitID.isZero = false →
      initChainResp.appHash = some initChainApp.lastCommitID.hash) ∧
    sha256 [] = emptyStringSha256 :=
  initChain_apphash_amended initChainApp ⟨"test-chain", 0, 1, none, []⟩
    (fun _ => { consensusParams := none, validators := [], appHash := none })
    initChainResp { initChainApp with initialHeight := 1, finalizeBranch := some () }
    rfl rfl

/-! ## Claim C6: genesis validator-set mismatch is fatal -/

/-- Inserting into a list grows the length by one. -/
theorem insertSorted_length (x : Nat) (l : List Nat) :
    (insertSorted x l).length = l.length + 1 := by
  induction l with
  | nil => rfl
  | cons y ys ih =>
      simp only [insertSorted]
      split_ifs <;> simp [ih]

/-- Canonical sorting preserves length. -/
theorem canonicalSortVals_length (l : List Nat) :
    (canonicalSortVals l).length = l.length := by
  induction l with
  | nil => rfl
  | cons x xs ih =>
      show (insertSorted x (canonicalSortVals xs)).length = xs.length + 1
      rw [insertSorted_length, ih]

/-- For equal-length lists, the element-wise comparison over the zip holds
exactly when the lists are equal. -/
theorem zip_all_beq_iff {l₁ l₂ : List Nat} (h : l₁.length = l₂.length) :
    (((l₁.zip l₂).all fun p => p.1 == p.2) = true ↔ l₁ = l₂) := by
  induction l₁ generalizing l₂ with
  | nil =>
      cases l₂ with
      | nil => simp
      | cons y ys => simp at h
  | cons x xs ih =>
      cases l₂ with
      | nil => simp at h
      | cons y ys =>
          simp only [List.zip_cons_cons, List.all_cons, Bool.and_eq_true, beq_iff_eq,
            List.cons.injEq]
          have h2 : xs.length = ys.length := by simpa using h
          rw [ih h2]

/-- C6: when the request-supplied genesis validator set and the
initializer-returned validator set are both non-empty and differ after
canonical sorting (different lengths or any element differing), `InitChain`
panics (modelled as an error) instead of returning normally. -/
theorem initChain_validator_mismatch_fatal {S : Type} (app : BaseApp S)
    (req : RequestInitChain) (f : RequestInitChain → ResponseInitChain)
    (hic : app.initChainer = some f) (hchain : req.chainId = app.chainID)
    (hreqNE : req.validators ≠ []) (hresNE : (f req).validators ≠ [])
    (hmismatch : canonicalSortVals req.validators ≠ canonicalSortVals (f req).validators) :
    ∃ e, InitChain app req = .error e := by
  have hvc : ∃ e, validatorSetCheck req.validators ((f req).validators) = .error e := by
    unfold validatorSetCheck
    have hlen : 0 < req.validators.length := List.length_pos.mpr hreqNE
    by_cases hl : req.validators.length = (f req).validators.length
    · have hsl : (canonicalSortVals ((f req).validators)).length =
          (canonicalSortVals req.validators).length := by
        rw [canonicalSortVals_length, canonicalSortVals_length, hl]
      have hne : ¬ ((canonicalSortVals ((f req).validators)).zip
          (canonicalSortVals req.validators)).all (fun p => p.1 == p.2) = true := by
        rw [zip_all_beq_iff hsl]
        exact fun hh => hmismatch hh.symm
      have hlen2 : 0 < (f req).validators.length := List.length_pos.mpr hresNE
      exact ⟨"genesisValidators mismatch", by simp [hlen, hl, hne, hlen2]⟩
    · exact ⟨"len RequestInitChain.Validators not equal len GenesisValidators",
        by simp [hlen, hl]⟩
  obtain ⟨e, hvceq⟩ := hvc
  refine ⟨e, ?_⟩
  unfold InitChain
  simp only [hchain, ne_eq, not_true_eq_false, if_false, ite_false]
  rw [hic]
  dsimp only
  rw [hvceq]

/-- A fresh app whose init-chainer returns validator set `[2]`. -/
def mismatchApp : BaseApp Unit :=
  { unitApp with
      initChainer := some (fun _ => { consensusParams := none, validators := [2], appHash := none }) }

/-- C6 witness: genesis validators `[1]` against returned validators `[2]`
makes `InitChain` fatal. -/
theorem initChain_validator_mismatch_fatal_witness :
    ∃ e, InitChain mismatchApp ⟨"test-chain", 0, 1, none, [1]⟩ = .error e :=
  initChain_validator_mismatch_fatal mismatchApp ⟨"test-chain", 0, 1, none, [1]⟩
    (fun _ => { consensusParams := none, validators := [2], appHash := none })
    rfl rfl (by decide) (by decide) (by decide)

/-! ## Claim C1: per-transaction results of FinalizeBlock -/

/-- The per-transaction results as a pure left-to-right pass over the input
transactions (the loop of `internalFinalizeBlock` with the cancellation
checks stripped): the executor result for every transaction that decodes,
the synthetic decode-failure result for every one that does not, in input
order. -/
def txResultsSpec {S : Type} (app : BaseApp S) : S → List (List Nat) → List ExecTxResult
  | _, [] => []
  | s, tx :: rest =>
      if app.txDecoder tx then
        (app.deliverTx s tx).2 :: txResultsSpec app (app.deliverTx s tx).1 rest
      else responseExecTxResultDecodeFailure :: txResultsSpec app s rest

/-- A successful transaction loop produces the accumulated prefix followed
by the pure pass over the remaining transactions. -/
theorem execTxsLoop_ok_spec {S : Type} (app : BaseApp S) (done : Nat → Bool) :
    ∀ (txs : List (List Nat)) (branch : S) (k : Nat) (acc : List ExecTxResult)
      (rs : List ExecTxResult) (b' : S),
      execTxsLoop app done txs branch k acc = .ok (rs, b') →
      rs = acc.reverse ++ txResultsSpec app branch txs := by
  intro txs
  induction txs with
  | nil =>
      intro branch k acc rs b' h
      simp only [execTxsLoop, Except.ok.injEq, Prod.mk.injEq] at h
      simp [txResultsSpec, ← h.1]
  | cons tx rest ih =>
      intro branch k acc rs b' h
      simp only [execTxsLoop] at h
      by_cases hd : done k
      · simp [hd] at h
      · simp only [hd, Bool.false_eq_true, if_false, ite_false] at h
        by_cases hdec : app.txDecoder tx
        · simp only [hdec, if_true, ite_true] at h
          have := ih (app.deliverTx branch tx).1 (k + 1) ((app.deliverTx branch tx).2 :: acc)
            rs b' h
          simp [txResultsSpec, hdec, this]
        · simp only [hdec, Bool.false_eq_true, if_false, ite_false] at h
          have := ih branch (k + 1) (responseExecTxResultDecodeFailure :: acc) rs b' h
          simp [txResultsSpec, hdec, this]

/-- The pure pass yields one result per input transaction. -/
theorem txResultsSpec_length {S : Type} (app : BaseApp S) :
    ∀ (txs : List (List Nat)) (s : S), (txResultsSpec app s txs).length = txs.length := by
  intro txs
  induction txs with
  | nil => intro s; rfl
  | cons tx rest ih =>
      intro s
      by_cases hdec : app.txDecoder tx <;> simp [txResultsSpec, hdec, ih]

/-- Every undecodable slot of the pure pass carries the synthetic
decode-failure result. -/
theorem txResultsSpec_decode_failure {S : Type} (app : BaseApp S) :
    ∀ (txs : List (List Nat)) (s : S) (i : Nat) (tx : List Nat),
      txs[i]? = some tx → app.txDecoder tx = false →
      (txResultsSpec app s txs)[i]? = some responseExecTxResultDecodeFailure := by
  intro txs
  induction txs with
  | nil => intro s i tx h; simp at h
  | cons t rest ih =>
      intro s i tx hget hdec
      cases i with
      | zero =>
          simp only [List.getElem?_cons_zero, Option.some.injEq] at hget
          subst hget
          simp [txResultsSpec, hdec]
      | succ n =>
          simp only [List.getElem?_cons_succ] at hget
          by_cases hd : app.txDecoder t <;>
            simp [txResultsSpec, hd, ih _ n tx hget hdec]

/-- C1: whenever `internalFinalizeBlock` returns a response, the response
carries exactly one result per submitted raw transaction, in input order
(the whole list is the pure left-to-right pass over the input), and every
raw transaction that fails to decode occupies its slot with the synthetic
decode-failure result (zero gas, the decode-error code) instead of being
omitted or aborting the block. -/
theorem finalizeBlock_txResults_complete {S : Type} (app : BaseApp S) (done : Nat → Bool)
    (req : RequestFinalizeBlock) (resp : ResponseFinalizeBlock) (app' : BaseApp S)
    (h : internalFinalizeBlock app done req = (.ok resp, app')) :
    resp.txResults.length = req.txs.length ∧
    (∀ (i : Nat) (tx : List Nat), req.txs[i]? = some tx → app.txDecoder tx = false →
      resp.txResults[i]? = some responseExecTxResultDecodeFailure) ∧
    (∃ b0, resp.txResults = txResultsSpec app b0 req.txs) := by
  unfold internalFinalizeBlock at h
  rcases hch : checkHalt app req.height req.timeUnix with e | u
  · rw [hch] at h; exact absurd h (by simp)
  rw [hch] at h
  rcases hvl : validateFinalizeBlockHeight app req.height with e | u
  · rw [hvl] at h; exact absurd h (by simp)
  rw [hvl] at h
  try dsimp only at h
  rcases hpb : app.preBlock req with e | preEv
  · rw [hpb] at h; exact absurd h (by simp)
  rw [hpb] at h
  rcases hbb : app.beginBlock req with e | begEv
  · rw [hbb] at h; exact absurd h (by simp)
  rw [hbb] at h
  try dsimp only at h
  rcases hd0 : done 0
  · rw [hd0] at h
    try dsimp only at h
    rcases hl : execTxsLoop app done req.txs
        (match app.finalizeBranch with
         | some b => b
         | none => app.branchOf app.rootStore) 1 [] with e | p
    · rw [hl] at h; exact absurd h (by simp)
    rw [hl] at h
    obtain ⟨rs, b1⟩ := p
    try dsimp only at h
    rcases heb : app.endBlock with e | q
    · rw [heb] at h; exact absurd h (by simp)
    rw [heb] at h
    obtain ⟨endEv, vu⟩ := q
    try dsimp only at h
    rcases hdn : done (req.txs.length + 1)
    · rw [hdn] at h
      try dsimp only at h
      injection h with h1 h2
      injection h1 with h1
      have hrs := execTxsLoop_ok_spec app done req.txs _ 1 [] rs b1 hl
      simp only [List.reverse_nil, List.nil_append] at hrs
      have hresp : resp.txResults = rs := by rw [← h1]
      refine ⟨?_, ?_, ?_⟩
      · rw [hresp, hrs, txResultsSpec_length]
      · intro i tx hget hdec
        rw [hresp, hrs]
        exact txResultsSpec_decode_failure app req.txs _ i tx hget hdec
      · exact ⟨_, by rw [hresp, hrs]⟩
    · rw [hdn] at h
      exact absurd h (by simp)
  · rw [hd0] at h
    exact absurd h (by simp)

/-- An app whose decoder rejects exactly the empty byte string. -/
def txApp : BaseApp Unit := { unitApp with txDecoder := fun tx => !tx.isEmpty }

/-- A first block carrying one decodable and one undecodable transaction. -/
def txReq : RequestFinalizeBlock := ⟨1, 0, [[1], []], []⟩

/-- The response `internalFinalizeBlock` produces for `txReq` on `txApp`. -/
def txResp : ResponseFinalizeBlock :=
  { events := [], txResults := [⟨0, "", 0, 0⟩, responseExecTxResultDecodeFailure],
    validatorUpdates := [], consensusParamUpdates := none, appHash := [] }

/-- C1 witness: a two-transaction block, the second undecodable, yields two
results with the decode-failure result in the second slot. -/
theorem finalizeBlock_txResults_complete_witness :
    txResp.txResults.length = txReq.txs.length ∧
    (∀ (i : Nat) (tx : List Nat), txReq.txs[i]? = some tx → txApp.txDecoder tx = false →
      txResp.txResults[i]? = some responseExecTxResultDecodeFailure) ∧
    (∃ b0, txResp.txResults = txResultsSpec txApp b0 txReq.txs) :=
  finalizeBlock_txResults_complete txApp (fun _ => false) txReq txResp
    { txApp with finalizeBranch := some () } rfl

/-! ## Claim C9: cancellation aborts the whole call -/

/-- The transaction loop aborts with the cancellation error whenever the
signal is done at one of its own check indices. -/
theorem execTxsLoop_cancel {S : Type} (app : BaseApp S) (done : Nat → Bool) :
    ∀ (txs : List (List Nat)) (branch : S) (k : Nat) (acc : List ExecTxResult),
      (∃ i, k ≤ i ∧ i < k + txs.length ∧ done i = true) →
      execTxsLoop app done txs branch k acc = .error contextCancelledErr := by
  intro txs
  induction txs with
  | nil =>
      rintro branch k acc ⟨i, h1, h2, _⟩
      simp at h2
      omega
  | cons tx rest ih =>
      rintro branch k acc ⟨i, h1, h2, h3⟩
      simp only [execTxsLoop]
      by_cases hd : done k
      · simp [hd]
      · have hik : i ≠ k := fun he => hd (he ▸ h3)
        simp only [hd, Bool.false_eq_true, if_false, ite_false]
        apply ih
        refine ⟨i, by omega, ?_, h3⟩
        simp only [List.length_cons] at h2
        omega

/-- The only error the transaction loop can produce is the cancellation
error, and only when the signal fired at one of its check indices. -/
theorem execTxsLoop_error_cancel {S : Type} (app : BaseApp S) (done : Nat → Bool) :
    ∀ (txs : List (List Nat)) (branch : S) (k : Nat) (acc : List ExecTxResult) (e : String),
      execTxsLoop app done txs branch k acc = .error e →
      e = contextCancelledErr ∧ ∃ i, k ≤ i ∧ i < k + txs.length ∧ done i = true := by
  intro txs
  induction txs with
  | nil =>
      intro branch k acc e h
      simp [execTxsLoop] at h
  | cons tx rest ih =>
      intro branch k acc e h
      simp only [execTxsLoop] at h
      by_cases hd : done k
      · simp only [hd, if_true, ite_true, Except.error.injEq] at h
        exact ⟨h.symm, k, le_refl k, by simp, hd⟩
      · simp only [hd, Bool.false_eq_true, if_false, ite_false] at h
        obtain ⟨he, i, h1, h2, h3⟩ := ih _ (k + 1) _ e h
        exact ⟨he, i, by omega, by simp only [List.length_cons]; omega, h3⟩

/-- C9: when the hooks succeed and the cancellation signal becomes done by
one of the yield points (after begin-block, after any transaction, after
end-block), `internalFinalizeBlock` aborts with the cancellation error, the
root store is untouched, and the `FinalizeBlock` tail around it returns no
partial response — a nil response with the cancellation error and no
write-through. -/
theorem finalizeBlock_cancellation_aborts {S : Type} (app : BaseApp S) (done : Nat → Bool)
    (req : RequestFinalizeBlock) (preEv begEv : List String)
    (endRes : List String × List Nat)
    (hhalt : checkHalt app req.height req.timeUnix = .ok ())
    (hval : validateFinalizeBlockHeight app req.height = .ok ())
    (hpre : app.preBlock req = .ok preEv)
    (hbeg : app.beginBlock req = .ok begEv)
    (hend : app.endBlock = .ok endRes)
    (hdone : ∃ i, i ≤ req.txs.length + 1 ∧ done i = true) :
    ∃ app2, internalFinalizeBlock app done req = (.error contextCancelledErr, app2) ∧
      app2.rootStore = app.rootStore ∧
      (∀ hashOf : S → List Nat, finalizeWithSignal hashOf app done req =
        (none, some contextCancelledErr, app2)) := by
  by_cases hd0 : done 0
  · have heq : internalFinalizeBlock app done req = (.error contextCancelledErr,
        { app with finalizeBranch := some (match app.finalizeBranch with
            | some b => b
            | none => app.branchOf app.rootStore) }) := by
      simp only [internalFinalizeBlock, hhalt, hval, hpre, hbeg, hd0, if_true, ite_true]
    exact ⟨_, heq, rfl, fun hashOf => by simp only [finalizeWithSignal, heq]⟩
  · by_cases hmid : ∃ i, 1 ≤ i ∧ i < 1 + req.txs.length ∧ done i = true
    · have hloop := execTxsLoop_cancel app done req.txs
        (match app.finalizeBranch with
         | some b => b
         | none => app.branchOf app.rootStore) 1 [] hmid
      have heq : internalFinalizeBlock app done req = (.error contextCancelledErr,
          { app with finalizeBranch := some (match app.finalizeBranch with
              | some b => b
              | none => app.branchOf app.rootStore) }) := by
        simp only [internalFinalizeBlock, hhalt, hval, hpre, hbeg, hd0, Bool.false_eq_true,
          if_false, ite_false, hloop]
      exact ⟨_, heq, rfl, fun hashOf => by simp only [finalizeWithSignal, heq]⟩
    · have hdn : done (req.txs.length + 1) = true := by
        obtain ⟨i, hle, hd⟩ := hdone
        rcases Nat.lt_or_ge i (req.txs.length + 1) with hlt | hge
        · rcases Nat.eq_zero_or_pos i with hz | hpos
          · exact absurd (hz ▸ hd) hd0
          · exact absurd ⟨i, by omega, by omega, hd⟩ hmid
        · have : i = req.txs.length + 1 := by omega
          exact this ▸ hd
      rcases hl : execTxsLoop app done req.txs
          (match app.finalizeBranch with
           | some b => b
           | none => app.branchOf app.rootStore) 1 [] with e | p
      · obtain ⟨he, i, h1, h2, h3⟩ := execTxsLoop_error_cancel app done req.txs _ 1 [] e hl
        exact absurd ⟨i, h1, by omega, h3⟩ hmid
      · obtain ⟨rs, b1⟩ := p
        have heq : internalFinalizeBlock app done req = (.error contextCancelledErr,
            { app with finalizeBranch := some b1 }) := by
          simp only [internalFinalizeBlock, hhalt, hval, hpre, hbeg, hd0, Bool.false_eq_true,
            if_false, ite_false, hl, hend, hdn, if_true, ite_true]
        exact ⟨_, heq, rfl, fun hashOf => by simp only [finalizeWithSignal, heq]⟩

/-- C9 witness: a signal that is done from the start cancels an otherwise
well-formed first block, with no write-through and no partial result. -/
theorem finalizeBlock_cancellation_aborts_witness :
    ∃ app2, internalFinalizeBlock unitApp (fun _ => true) ⟨1, 0, [], []⟩ =
        (.error contextCancelledErr, app2) ∧
      app2.rootStore = unitApp.rootStore ∧
      (∀ hashOf : Unit → List Nat,
        finalizeWithSignal hashOf unitApp (fun _ => true) ⟨1, 0, [], []⟩ =
          (none, some contextCancelledErr, app2)) :=
  finalizeBlock_cancellation_aborts unitApp (fun _ => true) ⟨1, 0, [], []⟩ [] [] ([], [])
    rfl rfl rfl rfl rfl ⟨0, by decide, rfl⟩

/-! ## Claim C7: query height handling -/

/-- An app with one committed block at height 3 and version byte `[118]`. -/
def queryApp : BaseApp Unit :=
  { unitApp with version := [118], lastCommitID := ⟨3, [7]⟩ }

/-- C7 (counterexample): a query for "/app/version" with the negative
height -5 is not rejected — it is answered with a code-0 success response
carrying the version bytes, because the app/store/p2p dispatch paths never
consult the sign of the height. -/
theorem query_negative_height_counterexample :
    Query queryApp ⟨[], "/app/version", -5, false⟩ =
      { code := 0, codespace := rootCodespace, log := "", height := -5, value := [118] } := by
  rfl

/-- C7 (amended): a requested height of 0 makes `Query` behave exactly as
with the latest committed height; for queries that build a state context
(`CreateQueryContext`, used by the gRPC-handler routes) a negative height,
a height above the latest committed height, and a proof request at resolved
height at most 1 are each rejected with a structured error; store queries
also reject proof requests at height at most 1.  No state is mutated in any
rejection (the embedding is a pure function of the app value). -/
theorem query_height_resolution_amended {S : Type} (app : BaseApp S) (req : RequestQuery)
    (h : Int) (p : Bool) :
    (req.height = 0 → Query app req = Query app { req with height := app.lastBlockHeight }) ∧
    (h < 0 → CreateQueryContext app h p =
      .error (errInvalidRequest "cannot query with height < 0; please provide a valid height")) ∧
    (h > app.lastBlockHeight → ∃ e, CreateQueryContext app h p = .error e) ∧
    (0 ≤ h → (if h = 0 then app.lastBlockHeight else h) ≤ 1 → p = true →
      ∃ e, CreateQueryContext app h p = .error e) ∧
    (∀ path : List String, req.height ≤ 1 → req.prove = true → app.cmsQueryable = true →
      handleQueryStore app path req = .ok (queryResultErr (errInvalidRequest
        "cannot query with proof when height <= 1; please provide a valid height"))) := by
  refine ⟨?_, ?_, ?_, ?_, ?_⟩
  · intro h0
    unfold Query queryInner
    by_cases hlb : app.lastBlockHeight = 0 <;> simp [h0, hlb]
  · intro hneg
    unfold CreateQueryContext checkNegativeHeight
    simp [hneg]
  · intro hfut
    by_cases hneg : h < 0
    · exact ⟨errInvalidRequest "cannot query with height < 0; please provide a valid height",
        by unfold CreateQueryContext checkNegativeHeight; simp [hneg]⟩
    · by_cases hlb : app.lastBlockHeight = 0
      · exact ⟨errInvalidHeight "app is not ready; please wait for first block",
          by unfold CreateQueryContext checkNegativeHeight; simp [hneg, hlb]⟩
      · exact ⟨errInvalidHeight
            "cannot query with height in the future; please provide a valid height",
          by unfold CreateQueryContext checkNegativeHeight; simp [hneg, hlb, hfut]⟩
  · intro h0 hres hp
    have hneg : ¬ h < 0 := by omega
    by_cases hlb : app.lastBlockHeight = 0
    · exact ⟨errInvalidHeight "app is not ready; please wait for first block",
        by unfold CreateQueryContext checkNegativeHeight; simp [hneg, hlb]⟩
    · by_cases hfut : h > app.lastBlockHeight
      · exact ⟨errInvalidHeight
            "cannot query with height in the future; please provide a valid height",
          by unfold CreateQueryContext checkNegativeHeight; simp [hneg, hlb, hfut]⟩
      · exact ⟨errInvalidRequest
            "cannot query with proof when height <= 1; please provide a valid height",
          by unfold CreateQueryContext checkNegativeHeight; simp [hneg, hlb, hfut, hres, hp]⟩
  · intro path h1 hp hcq
    unfold handleQueryStore
    simp [hcq, h1, hp]

/-- C7 witness: on the app committed at height 3, a zero-height query
equals the same query at height 3, and heights -1 (negative), 9 (future)
and a proof request at height 1 are all rejected. -/
theorem query_height_resolution_amended_witness :
    Query queryApp ⟨[], "/app/version", 0, false⟩ =
      Query queryApp ⟨[], "/app/version", 3, false⟩ ∧
    CreateQueryContext queryApp (-1) false =
      .error (errInvalidRequest "cannot query with height < 0; please provide a valid height") ∧
    (∃ e, CreateQueryContext queryApp 9 false = .error e) ∧
    (∃ e, CreateQueryContext queryApp 1 true = .error e) :=
  ⟨(query_height_resolution_amended queryApp ⟨[], "/app/version", 0, false⟩ (-1) false).1 rfl,
   (query_height_resolution_amended queryApp ⟨[], "/app/version", 0, false⟩ (-1) false).2.1
      (by decide),
   (query_height_resolution_amended queryApp ⟨[], "/app/version", 0, false⟩ 9 false).2.2.1
      (by decide),
   (query_height_resolution_amended queryApp ⟨[], "/app/version", 0, false⟩ 1 true).2.2.2.1
      (by decide) (by decide) rfl⟩

/-! ## Claim C8: panic recovery and unknown-path handling in Query -/

/-- C8: any panic raised inside query processing is recovered at the
`Query` boundary and converted into the structured recovered-panic error
(never propagated); a path that matches no route (not the broadcast path,
no registered gRPC handler, and a first segment other than app, store and
p2p) yields the structured unknown-request error result; and a gRPC
handler panic is not swallowed by the dispatch — it travels to the boundary
from `handleQueryGRPC`. -/
theorem query_panic_recovered {S : Type} (app : BaseApp S) (req : RequestQuery) :
    (∀ m, queryInner app req = .error m →
      Query app req = queryResultErr (errPanicRecovered m) ∧ (Query app req).code ≠ 0) ∧
    (req.path ≠ "/cosmos.tx.v1beta1.Service/BroadcastTx" →
      app.grpcQueryRouter req.path = none →
      (∀ (p0 : String) (rest : List String), SplitABCIQueryPath req.path = p0 :: rest →
        p0 ≠ "app" ∧ p0 ≠ "store" ∧ p0 ≠ "p2p") →
      (Query app req).code = 6 ∧ (Query app req).code ≠ 0 ∧
        (Query app req).codespace = rootCodespace) ∧
    (∀ (handler : QueryContext S → RequestQuery → GrpcOutcome) (ctx : QueryContext S)
        (m : String) (r : RequestQuery),
      CreateQueryContext app r.height r.prove = .ok ctx →
      handler ctx r = .thrown m →
      handleQueryGRPC app handler r = .error m) := by
  obtain ⟨d, pth, ht, pv⟩ := req
  refine ⟨?_, ?_, ?_⟩
  · intro m hm
    constructor
    · unfold Query
      rw [hm]
    · unfold Query
      rw [hm]
      simp [queryResultErr, errPanicRecovered]
  · intro hbc hroute hall
    have hinner : ∃ msg, queryInner app ⟨d, pth, ht, pv⟩ =
        .ok (queryResultErr (errUnknownRequest msg)) := by
      unfold queryInner
      by_cases h0 : ht = 0 <;>
        simp only [h0, if_true, ite_true, if_false, ite_false] <;>
        rcases hsp : SplitABCIQueryPath pth with _ | ⟨p0, rest⟩
      · exact ⟨"no query path provided", by simp [hbc, hroute, hsp]⟩
      · obtain ⟨h1, h2, h3⟩ := hall p0 rest hsp
        exact ⟨"unknown query path", by simp [hbc, hroute, hsp, h1, h2, h3]⟩
      · exact ⟨"no query path provided", by simp [hbc, hroute, hsp]⟩
      · obtain ⟨h1, h2, h3⟩ := hall p0 rest hsp
        exact ⟨"unknown query path", by simp [hbc, hroute, hsp, h1, h2, h3]⟩
    obtain ⟨msg, hmsg⟩ := hinner
    unfold Query
    rw [hmsg]
    dsimp only
    exact ⟨rfl, by simp [queryResultErr, errUnknownRequest], rfl⟩
  · intro handler ctx m r hctx hthrown
    unfold handleQueryGRPC
    rw [hctx]
    dsimp only
    rw [hthrown]

/-- An app whose gRPC router serves "/x" with a handler that panics. -/
def panicQueryApp : BaseApp Unit :=
  { unitApp with
      lastCommitID := ⟨3, [7]⟩,
      grpcQueryRouter := fun path =>
        if path = "/x" then some (fun _ _ => .thrown "boom") else none }

/-- C8 witness: the panicking handler leads to the structured recovered-
panic response with a non-zero code, not a crash. -/
theorem query_panic_recovered_witness :
    Query panicQueryApp ⟨[], "/x", 2, false⟩ = queryResultErr (errPanicRecovered "boom") ∧
    (Query panicQueryApp ⟨[], "/x", 2, false⟩).code ≠ 0 :=
  (query_panic_recovered panicQueryApp ⟨[], "/x", 2, false⟩).1 "boom" rfl

end Baseapp
